import Mathlib

/-!
Shallow embedding of `src/main.py` (a small MCP tool that translates a
natural-language intent into an OData query path, fetches it with a bearer
token, and distills the response into a short listing).

Python strings are modelled as Lean `String` (a list of characters); the
character classes used by Python's `str.lower`, `re` pattern `\btop\s+(\d+)\b`
(word chars, whitespace, digits) are modelled with the corresponding ASCII
predicates.
-/

/-- Model of the JSON-decoded Python values flowing through the pipeline
(`response.json()` results and the dicts built by `call_odata`). -/
inductive PyVal where
  | none
  | bool (b : Bool)
  | int (n : Int)
  | str (s : String)
  | list (l : List PyVal)
  | dict (kvs : List (String × PyVal))

/-- Python truthiness (`bool(x)`), as used by the `or` chains in
`process_odata_response`. -/
def pyTruthy : PyVal → Bool
  | .none => false
  | .bool b => b
  | .int n => n != 0
  | .str s => !s.isEmpty
  | .list l => !l.isEmpty
  | .dict kvs => !kvs.isEmpty

/-- First-occurrence lookup in a modelled dict (Python dict keys are unique,
so first-occurrence lookup agrees with Python indexing). -/
def lookupKey (k : String) : List (String × PyVal) → Option PyVal
  | [] => Option.none
  | (k2, v) :: rest => if k2 = k then some v else lookupKey k rest

/-- Python `d.get(k)` with default `None`. -/
def pyGet (kvs : List (String × PyVal)) (k : String) : PyVal :=
  (lookupKey k kvs).getD .none

/-- The single-quote character, written via its code point. -/
def squote : Char := Char.ofNat 39

/-- The double-quote character, written via its code point. -/
def dquote : Char := Char.ofNat 34

/-- Python `repr` of a string restricted to the escapes relevant here
(quote choice, backslash, newline, carriage return, tab). -/
def pyReprStr (s : String) : String :=
  let hasSingle := s.data.contains squote
  let hasDouble := s.data.contains dquote
  let q : Char := if hasSingle && !hasDouble then dquote else squote
  let esc : Char → String := fun c =>
    if c = Char.ofNat 92 then String.mk [Char.ofNat 92, Char.ofNat 92]
    else if c = q then String.mk [Char.ofNat 92, q]
    else if c = Char.ofNat 10 then String.mk [Char.ofNat 92, Char.ofNat 110]
    else if c = Char.ofNat 13 then String.mk [Char.ofNat 92, Char.ofNat 114]
    else if c = Char.ofNat 9 then String.mk [Char.ofNat 92, Char.ofNat 116]
    else String.mk [c]
  String.mk [q] ++ String.join (s.data.map esc) ++ String.mk [q]

mutual

/-- Python `repr` on modelled values. -/
def pyRepr : PyVal → String
  | .none => "None"
  | .bool true => "True"
  | .bool false => "False"
  | .int n => toString n
  | .str s => pyReprStr s
  | .list l => "[" ++ pyReprList l ++ "]"
  | .dict kvs => "\x7b" ++ pyReprKVs kvs ++ "\x7d"

/-- Comma-joined `repr` of list elements. -/
def pyReprList : List PyVal → String
  | [] => ""
  | [v] => pyRepr v
  | v :: vs => pyRepr v ++ ", " ++ pyReprList vs

/-- Comma-joined `repr` of dict items. -/
def pyReprKVs : List (String × PyVal) → String
  | [] => ""
  | [(k, v)] => pyReprStr k ++ ": " ++ pyRepr v
  | (k, v) :: kvs => pyReprStr k ++ ": " ++ pyRepr v ++ ", " ++ pyReprKVs kvs

end

/-- Python `str(x)`: identity on strings, `repr` on every other value
appearing here (`None`, numbers, lists, dicts). -/
def pyStr : PyVal → String
  | .str s => s
  | v => pyRepr v

example : pyStr (.dict [("_raw_text", .str "<x/>")]) =
    "\x7b" ++ String.mk [squote] ++ "_raw_text" ++ String.mk [squote] ++ ": "
      ++ String.mk [squote] ++ "<x/>" ++ String.mk [squote] ++ "\x7d" := by decide

/-! ## The heuristic translator (`LocalMCP.generate_odata_query`) -/

/-- Python `str.lower()` restricted to ASCII case mapping (the intents in
play are ASCII text). -/
def strLower (s : String) : String := String.mk (s.data.map Char.toLower)

/-- Python regex `\w` (word character), ASCII fragment: letters, digits,
underscore. -/
def isWordChar (c : Char) : Bool := c.isAlphanum || c = Char.ofNat 95

/-- Python substring containment `pat in hay` on character lists. -/
def containsSub (hay pat : List Char) : Bool := decide (pat <:+: hay)

/-- Match `\s+(\d+)\b` against `rest` (the characters after a literal
`top`); returns the captured digit group. For this pattern, greedy matching
with no backtracking is exact: `\s` and `\d` are disjoint, and shrinking the
digit group can never create the trailing word boundary. -/
def afterTop (rest : List Char) : Option (List Char) :=
  let rest2 := rest.dropWhile Char.isWhitespace
  let ds := rest2.takeWhile Char.isDigit
  if (rest.takeWhile Char.isWhitespace).isEmpty then Option.none
  else if ds.isEmpty then Option.none
  else
    match rest2.dropWhile Char.isDigit with
    | [] => some ds
    | c :: _ => if isWordChar c then Option.none else some ds

/-- Attempt to match the regex `top\s+(\d+)\b` at the head of `l`
(the leading `\b` is handled by the caller's scan state); returns the
captured digit group. -/
def matchTopAt : List Char → Option (List Char)
  | c1 :: c2 :: c3 :: rest =>
    if c1 = 't' && c2 = 'o' && c3 = 'p' then afterTop rest else Option.none
  | _ => Option.none

/-- Left-to-right scan of `re.search(r'\btop\s+(\d+)\b', ...)`: `bOk` records
whether a word boundary precedes the current position (true at the start of
the string or after a non-word character). -/
def searchTopNGo : Bool → List Char → Option (List Char)
  | _, [] => Option.none
  | bOk, c :: cs =>
    if bOk then
      match matchTopAt (c :: cs) with
      | some ds => some ds
      | Option.none => searchTopNGo (!isWordChar c) cs
    else searchTopNGo (!isWordChar c) cs

/-- `re.search(r'\btop\s+(\d+)\b', l)`: the digit group of the leftmost
match, if any. -/
def searchTopN (l : List Char) : Option (List Char) := searchTopNGo true l

namespace LocalMCP

/-- `LocalMCP.generate_odata_query` from `src/main.py` (lines 38-51):
lower-case the intent; if it contains the substrings `"top"` and
`"customers"`, emit `CustomersV3?$top=<N>` with `N` the digit group of
`re.search(r'\btop\s+(\d+)\b', ...)` (default `"10"` when the regex does
not match); else if it contains `"customers"` (the redundant
`"get customers"` disjunct is kept from the source), emit
`CustomersV3?$top=50`; else `CustomersV3?$top=10`. -/
def generate_odata_query (intent : String) : String :=
  let il := strLower intent
  if containsSub il.data "top".data && containsSub il.data "customers".data then
    match searchTopN il.data with
    | some n => "CustomersV3?$top=" ++ String.mk n
    | Option.none => "CustomersV3?$top=10"
  else if containsSub il.data "customers".data || containsSub il.data "get customers".data then
    "CustomersV3?$top=50"
  else
    "CustomersV3?$top=10"

end LocalMCP

example : LocalMCP.generate_odata_query "Get top 5 customers" = "CustomersV3?$top=5" := by decide
example : LocalMCP.generate_odata_query "list customers" = "CustomersV3?$top=50" := by decide
example : LocalMCP.generate_odata_query "hello" = "CustomersV3?$top=10" := by decide
example : LocalMCP.generate_odata_query "stop customers" = "CustomersV3?$top=10" := by decide
example : LocalMCP.generate_odata_query "top 12 customers" = "CustomersV3?$top=12" := by decide
example : LocalMCP.generate_odata_query "top5 customers" = "CustomersV3?$top=10" := by decide

/-! ## The heuristic distiller (`LocalMCP.process_odata_response`) -/

/-- Python `type(x).__name__` for the modelled values (used in the
`AttributeError` message raised by `r.get(...)` on a non-dict row). -/
def pyTypeName : PyVal → String
  | .none => "NoneType"
  | .bool _ => "bool"
  | .int _ => "int"
  | .str _ => "str"
  | .list _ => "list"
  | .dict _ => "dict"

/-- Python `a or b or ...`: the first truthy value, else the last one
(`.none` for an empty chain, which never occurs in the source). -/
def orChain : List PyVal → PyVal
  | [] => .none
  | [v] => v
  | v :: vs => if pyTruthy v then v else orChain vs

/-- One field of a row line: `f"{x or 'unknown'}"`, i.e. `str()` of the
value if truthy, else the literal `unknown`. -/
def fmtField (v : PyVal) : String :=
  pyStr (if pyTruthy v then v else .str "unknown")

/-- One iteration of the row loop in `process_odata_response` (lines 64-67):
on a dict row, resolve the id and name by the two `or`-chains of `.get`
lookups; on a non-dict row, `r.get` raises `AttributeError`, modelled as the
error case. -/
def extractRow (r : PyVal) : Except String String :=
  match r with
  | .dict kvs =>
    let cust_id := orChain [pyGet kvs "PartyNumber", pyGet kvs "CustomerAccount",
      pyGet kvs "AccountNumber", pyGet kvs "Id", pyGet kvs "RecId"]
    let name := orChain [pyGet kvs "Name", pyGet kvs "PartyLegalName",
      pyGet kvs "DisplayName", pyGet kvs "PartyName", pyGet kvs "CustomerName"]
    .ok (fmtField cust_id ++ ": " ++ fmtField name)
  | v => .error (pyReprStr (pyTypeName v) ++ " object has no attribute "
      ++ pyReprStr "get")

/-- The row loop: all lines, or the first raised exception. -/
def collectRows : List PyVal → Except String (List String)
  | [] => .ok []
  | r :: rs =>
    match extractRow r with
    | .error e => .error e
    | .ok line =>
      match collectRows rs with
      | .error e => .error e
      | .ok lines => .ok (line :: lines)

namespace LocalMCP

/-- `LocalMCP.process_odata_response` from `src/main.py` (lines 53-75):
a dict with a list under `"value"` is rendered row by row joined with
newlines (or the fixed no-rows message); a plain string is returned
unchanged; anything else is rendered with `str()`; an exception inside the
row loop is caught and rendered as `Error processing response: <detail>`. -/
def process_odata_response (raw : PyVal) : String :=
  match raw with
  | .dict kvs =>
    match lookupKey "value" kvs with
    | some (.list rows) =>
      match collectRows rows with
      | .ok results =>
        if results.isEmpty then "No customers found in response."
        else String.intercalate "\n" results
      | .error e => "Error processing response: " ++ e
    | _ => pyStr raw
  | .str s => s
  | v => pyStr v

end LocalMCP

example : LocalMCP.process_odata_response
    (.dict [("value", .list [.dict [("PartyNumber", .str "C001"), ("Name", .str "Acme")]])])
    = "C001: Acme" := by decide
example : LocalMCP.process_odata_response (.dict [("value", .list [])])
    = "No customers found in response." := by decide
example : LocalMCP.process_odata_response (.dict [("value", .list [.dict []])])
    = "unknown: unknown" := by decide
example : LocalMCP.process_odata_response (.str "<xml/>") = "<xml/>" := by decide
example : LocalMCP.process_odata_response
    (.dict [("value", .list [.dict [("AccountNumber", .str "A1"), ("DisplayName", .str "Contoso")]])])
    = "A1: Contoso" := by decide

/-! ## TokenProvider, RetrievalClient and the orchestrator -/

/-- One HTTP response as seen by the `requests` calls: status code, the
result of `response.json()` when the body parses as JSON, and
`response.text`. -/
structure HttpResponse where
  status : Nat
  jsonBody : Option PyVal
  textBody : String

/-- The outbound network calls a pipeline run performs, in order. -/
inductive HttpEvent where
  | tokenPost
  | odataGet (url : String) (authHeader : String)
deriving DecidableEq

/-- The environment a run executes against: the identity endpoint's response,
the ERP endpoint's response per query path, and the configured base URL
(`D365_ENV_URL`). -/
structure World where
  tokenResponse : HttpResponse
  odataResponse : String → HttpResponse
  baseUrl : String

/-- `get_access_token` from `src/main.py` (lines 89-102): POST to the
identity endpoint; on status 200 return `response.json().get('access_token')`
(which is `None` when the field is absent, and raises when the body is not
JSON or not a dict); otherwise raise
`Exception(f"Token request failed: ...")`. The emitted events record the
outbound POST; `Except.error` models a raised exception. -/
def get_access_token (w : World) : Except String PyVal × List HttpEvent :=
  let r := w.tokenResponse
  let evs := [HttpEvent.tokenPost]
  if r.status = 200 then
    match r.jsonBody with
    | some (.dict kvs) => (.ok (pyGet kvs "access_token"), evs)
    | some v => (.error (pyReprStr (pyTypeName v) ++ " object has no attribute "
        ++ pyReprStr "get"), evs)
    | Option.none => (.error "JSONDecodeError", evs)
  else
    (.error ("Token request failed: " ++ toString r.status ++ " - " ++ r.textBody), evs)

/-- `call_odata` from `src/main.py` (lines 125-142): fetch a fresh token
(raises propagate), GET `{base}/data/{query_path}` with
`Authorization: Bearer {token}`; status 200 with JSON body returns the
decoded value, status 200 with a non-JSON body returns
`{"_raw_text": response.text}`, and any other status returns
`{"error": response.text, "status_code": status}`. -/
def call_odata (w : World) (query_path : String) : Except String PyVal × List HttpEvent :=
  match get_access_token w with
  | (.error e, evs) => (.error e, evs)
  | (.ok tok, evs) =>
    let full_url := w.baseUrl ++ "/data/" ++ query_path
    let auth := "Bearer " ++ pyStr tok
    let r := w.odataResponse query_path
    let evs2 := evs ++ [HttpEvent.odataGet full_url auth]
    if r.status = 200 then
      match r.jsonBody with
      | some v => (.ok v, evs2)
      | Option.none => (.ok (.dict [("_raw_text", .str r.textBody)]), evs2)
    else
      (.ok (.dict [("error", .str r.textBody), ("status_code", .int r.status)]), evs2)

/-- `query_mcp_for_odata` from `src/main.py` (lines 105-114): when the
external `mcp` implementation is available, try it and fall back to
`LocalMCP` on any exception (`delegated intent = .error e` models a raised
exception); otherwise use `LocalMCP` directly. -/
def query_mcp_for_odata (mcp_available : Bool) (delegated : String → Except String String)
    (intent : String) : String :=
  if mcp_available then
    match delegated intent with
    | .ok q => q
    | .error _ => LocalMCP.generate_odata_query intent
  else
    LocalMCP.generate_odata_query intent

/-- `query_mcp_for_changes` from `src/main.py` (lines 116-122): same
fallback shape for response processing. -/
def query_mcp_for_changes (mcp_available : Bool) (delegated : PyVal → Except String String)
    (raw_response : PyVal) : String :=
  if mcp_available then
    match delegated raw_response with
    | .ok s => s
    | .error _ => LocalMCP.process_odata_response raw_response
  else
    LocalMCP.process_odata_response raw_response

/-- The caller-facing envelope (`McpResponse` in `src/main.py`). -/
structure McpResponse where
  message : String
  processedContext : String
deriving DecidableEq

/-- `mcp_tool` from `src/main.py` (lines 145-166): translate the intent,
call the OData endpoint, process the response, wrap in the greeting
template. The body performs no validation of `context`; any exception is
caught at this level and re-raised as `HTTPException(status_code=500,
detail=str(e))`, modelled as `.error (500, detail)`. The event list records
every outbound network call the invocation performed. -/
def mcp_tool (mcp_available : Bool) (dq : String → Except String String)
    (dp : PyVal → Except String String) (w : World) (context : String) :
    Except (Nat × String) McpResponse × List HttpEvent :=
  let odata_query := query_mcp_for_odata mcp_available dq context
  match call_odata w odata_query with
  | (.error e, evs) => (.error (500, e), evs)
  | (.ok odata_response, evs) =>
    let processed := query_mcp_for_changes mcp_available dp odata_response
    let message := "Hello, here is the information you requested:\n" ++ processed
    (.ok ⟨message, processed⟩, evs)

/-! ## Supporting lemmas -/

theorem takeWhile_all_append (p : Char → Bool) (l1 l2 : List Char)
    (h : ∀ c ∈ l1, p c = true) :
    (l1 ++ l2).takeWhile p = l1 ++ l2.takeWhile p := by
  induction l1 with
  | nil => simp
  | cons a as ih =>
    have ha : p a = true := h a (List.mem_cons_self a as)
    simp [List.takeWhile, ha]
    exact ih fun c hc => h c (List.mem_cons_of_mem a hc)

theorem dropWhile_all_append (p : Char → Bool) (l1 l2 : List Char)
    (h : ∀ c ∈ l1, p c = true) :
    (l1 ++ l2).dropWhile p = l2.dropWhile p := by
  induction l1 with
  | nil => simp
  | cons a as ih =>
    have ha : p a = true := h a (List.mem_cons_self a as)
    simp [List.dropWhile, ha]
    exact ih fun c hc => h c (List.mem_cons_of_mem a hc)

theorem takeWhile_head_neg (p : Char → Bool) (l : List Char)
    (h : ∀ c, l.head? = some c → p c = false) :
    l.takeWhile p = [] := by
  cases l with
  | nil => rfl
  | cons a as => simp [List.takeWhile, h a rfl]

theorem dropWhile_head_neg (p : Char → Bool) (l : List Char)
    (h : ∀ c, l.head? = some c → p c = false) :
    l.dropWhile p = l := by
  cases l with
  | nil => rfl
  | cons a as => simp [List.dropWhile, h a rfl]

theorem digit_not_whitespace (c : Char) (h : c.isDigit = true) :
    c.isWhitespace = false := by
  have hd := h
  simp only [Char.isDigit] at hd
  rcases Bool.and_eq_true_iff.mp hd with ⟨h1, h2⟩
  have hlo : (48 : UInt32) ≤ c.val := decide_eq_true_eq.mp h1
  have hhi : c.val ≤ (57 : UInt32) := decide_eq_true_eq.mp h2
  cases hw : c.isWhitespace with
  | false => rfl
  | true =>
    exfalso
    simp only [Char.isWhitespace, Bool.or_eq_true, decide_eq_true_eq] at hw
    rcases hw with ((rfl | rfl) | rfl) | rfl <;> revert hlo hhi <;> decide

theorem digit_is_word (c : Char) (h : c.isDigit = true) :
    isWordChar c = true := by
  simp [isWordChar, Char.isAlphanum, h]

theorem afterTop_digits (rest ds : List Char) (h : afterTop rest = some ds) :
    ds ≠ [] ∧ ∀ c ∈ ds, c.isDigit = true := by
  simp only [afterTop] at h
  split_ifs at h with h1 h2
  have hds : ds = (rest.dropWhile Char.isWhitespace).takeWhile Char.isDigit := by
    rcases hdrop : (rest.dropWhile Char.isWhitespace).dropWhile Char.isDigit with _ | ⟨c, cs⟩
    · rw [hdrop] at h; exact (Option.some.inj h).symm
    · rw [hdrop] at h
      by_cases hw : isWordChar c = true
      · simp [hw] at h
      · simp only [hw, if_neg, Bool.false_eq_true, if_false] at h
        exact (Option.some.inj h).symm
  constructor
  · intro hnil
    rw [hds] at hnil
    rw [hnil] at h2
    exact h2 rfl
  · intro c hc
    rw [hds] at hc
    exact List.mem_takeWhile_imp hc

theorem matchTopAt_digits (l ds : List Char) (h : matchTopAt l = some ds) :
    ds ≠ [] ∧ ∀ c ∈ ds, c.isDigit = true := by
  rcases l with _ | ⟨c1, l⟩
  · simp [matchTopAt] at h
  rcases l with _ | ⟨c2, l⟩
  · simp [matchTopAt] at h
  rcases l with _ | ⟨c3, rest⟩
  · simp [matchTopAt] at h
  simp only [matchTopAt] at h
  by_cases htop : (c1 = 't' && c2 = 'o' && c3 = 'p') = true
  · rw [if_pos htop] at h
    exact afterTop_digits rest ds h
  · rw [if_neg htop] at h
    exact absurd h (by simp)

theorem searchTopNGo_digits (l : List Char) (b : Bool) (ds : List Char)
    (h : searchTopNGo b l = some ds) :
    ds ≠ [] ∧ ∀ c ∈ ds, c.isDigit = true := by
  induction l generalizing b with
  | nil => simp [searchTopNGo] at h
  | cons c cs ih =>
    cases b with
    | true =>
      rcases hm : matchTopAt (c :: cs) with _ | x
      · simp only [searchTopNGo, if_true, hm] at h
        exact ih (!isWordChar c) h
      · simp only [searchTopNGo, if_true, hm] at h
        exact matchTopAt_digits (c :: cs) ds (by rw [hm, h])
    | false =>
      simp only [searchTopNGo, Bool.false_eq_true, if_false] at h
      exact ih (!isWordChar c) h

theorem searchTopN_digits (l ds : List Char) (h : searchTopN l = some ds) :
    ds ≠ [] ∧ ∀ c ∈ ds, c.isDigit = true :=
  searchTopNGo_digits l true ds h

theorem afterTop_struct (ws ds post : List Char)
    (hwsne : ws ≠ []) (hwsall : ∀ c ∈ ws, c.isWhitespace = true)
    (hdsne : ds ≠ []) (hdsall : ∀ c ∈ ds, c.isDigit = true)
    (hpost : ∀ c, post.head? = some c → isWordChar c = false) :
    afterTop (ws ++ ds ++ post) = some ds := by
  have hdshead : ∀ c, (ds ++ post).head? = some c → c.isWhitespace = false := by
    intro c hc
    cases ds with
    | nil => exact absurd rfl hdsne
    | cons d ds1 =>
      have hdc : d = c := by simpa using hc
      subst hdc
      exact digit_not_whitespace d (hdsall d (List.mem_cons_self _ _))
  have hposthead : ∀ c, post.head? = some c → c.isDigit = false := by
    intro c hc
    cases hd : c.isDigit
    · rfl
    · exact absurd (digit_is_word c hd) (by simp [hpost c hc])
  have htw : (ws ++ ds ++ post).takeWhile Char.isWhitespace = ws := by
    rw [List.append_assoc, takeWhile_all_append _ _ _ hwsall,
      takeWhile_head_neg _ _ hdshead, List.append_nil]
  have hdw : (ws ++ ds ++ post).dropWhile Char.isWhitespace = ds ++ post := by
    rw [List.append_assoc, dropWhile_all_append _ _ _ hwsall,
      dropWhile_head_neg _ _ hdshead]
  have htd : (ds ++ post).takeWhile Char.isDigit = ds := by
    rw [takeWhile_all_append _ _ _ hdsall, takeWhile_head_neg _ _ hposthead,
      List.append_nil]
  have hdd : (ds ++ post).dropWhile Char.isDigit = post := by
    rw [dropWhile_all_append _ _ _ hdsall, dropWhile_head_neg _ _ hposthead]
  have hwsE : ws.isEmpty = false := by
    cases ws with
    | nil => exact absurd rfl hwsne
    | cons a l => rfl
  have hdsE : ds.isEmpty = false := by
    cases ds with
    | nil => exact absurd rfl hdsne
    | cons a l => rfl
  simp only [afterTop, hdw, htd, hdd, htw, hwsE, hdsE, Bool.false_eq_true,
    if_false]
  cases post with
  | nil => rfl
  | cons c ps => simp [hpost c rfl]

theorem matchTopAt_struct (ws ds post : List Char)
    (hwsne : ws ≠ []) (hwsall : ∀ c ∈ ws, c.isWhitespace = true)
    (hdsne : ds ≠ []) (hdsall : ∀ c ∈ ds, c.isDigit = true)
    (hpost : ∀ c, post.head? = some c → isWordChar c = false) :
    matchTopAt ('t' :: 'o' :: 'p' :: (ws ++ ds ++ post)) = some ds := by
  simp only [matchTopAt]
  rw [if_pos (by decide)]
  exact afterTop_struct ws ds post hwsne hwsall hdsne hdsall hpost

theorem searchTopNGo_isSome (pre : List Char) : ∀ (b : Bool) (rest ds : List Char),
    matchTopAt rest = some ds →
    (pre = [] → b = true) →
    (∀ c, pre.getLast? = some c → isWordChar c = false) →
    (searchTopNGo b (pre ++ rest)).isSome = true := by
  induction pre with
  | nil =>
    intro b rest ds hmatch hnil _
    have hb : b = true := hnil rfl
    subst hb
    cases rest with
    | nil => simp [matchTopAt] at hmatch
    | cons c cs =>
      simp only [List.nil_append, searchTopNGo, if_true, hmatch]
      rfl
  | cons a as ih =>
    intro b rest ds hmatch _ hlast
    have hlast2 : ∀ c, as.getLast? = some c → isWordChar c = false := by
      intro c hc
      cases as with
      | nil => simp at hc
      | cons a2 as2 => exact hlast c (by rw [List.getLast?_cons_cons]; exact hc)
    have hnil2 : as = [] → (!isWordChar a) = true := by
      intro hn
      subst hn
      have ha : isWordChar a = false := hlast a (by rfl)
      simp [ha]
    cases b with
    | true =>
      rcases hm : matchTopAt (a :: (as ++ rest)) with _ | x
      · simp only [List.cons_append, searchTopNGo, List.append_eq, if_true, hm]
        exact ih (!isWordChar a) rest ds hmatch hnil2 hlast2
      · simp only [List.cons_append, searchTopNGo, List.append_eq, if_true, hm]
        rfl
    | false =>
      simp only [List.cons_append, searchTopNGo, Bool.false_eq_true, if_false]
      exact ih (!isWordChar a) rest ds hmatch hnil2 hlast2

theorem searchTopN_isSome (pre rest ds : List Char)
    (hmatch : matchTopAt rest = some ds)
    (hlast : ∀ c, pre.getLast? = some c → isWordChar c = false) :
    (searchTopN (pre ++ rest)).isSome = true :=
  searchTopNGo_isSome pre true rest ds hmatch (fun _ => rfl) hlast

theorem option_all_some (p : Char → Bool) (o : Option Char) (h : o.all p = true)
    (c : Char) (hc : o = some c) : p c = true := by
  subst hc
  exact h

/-! ## Claims about the heuristic translator -/

/-- C1 (counterexample): the claim says that every intent containing
`customers` (after lower-casing) with no explicit `top N` phrase yields
`CustomersV3?$top=50`. The intent `"stop customers"` contains `customers`
and no `top N` phrase (the regex `\btop\s+(\d+)\b` finds no match), yet the
translator returns `CustomersV3?$top=10`: the membership test `"top" in
intent_lower` is a plain substring check and fires inside `stop`. -/
theorem claim_C1_counterexample :
    containsSub (strLower "stop customers").data "customers".data = true ∧
    searchTopN (strLower "stop customers").data = Option.none ∧
    LocalMCP.generate_odata_query "stop customers" = "CustomersV3?$top=10" ∧
    LocalMCP.generate_odata_query "stop customers" ≠ "CustomersV3?$top=50" :=
  ⟨by decide, by decide, by decide, by decide⟩

/-- C1 (amended): for every intent whose lower-cased text contains
`customers` but does not contain the substring `top`, the heuristic
translator returns exactly `CustomersV3?$top=50`. -/
theorem claim_C1 (intent : String)
    (hcust : containsSub (strLower intent).data "customers".data = true)
    (htop : containsSub (strLower intent).data "top".data = false) :
    LocalMCP.generate_odata_query intent = "CustomersV3?$top=50" := by
  simp only [LocalMCP.generate_odata_query, htop, hcust, Bool.false_and,
    Bool.true_or, Bool.false_eq_true, if_false, if_true]

theorem claim_C1_witness :
    containsSub (strLower "list customers").data "customers".data = true ∧
    containsSub (strLower "list customers").data "top".data = false ∧
    LocalMCP.generate_odata_query "list customers" = "CustomersV3?$top=50" :=
  ⟨by decide, by decide, claim_C1 "list customers" (by decide) (by decide)⟩

/-- C5: for every intent whose lower-cased text contains `customers` and a
whole-word `top` followed by whitespace and a digit group ending at a word
boundary (the explicit `top N` phrase), the translator returns exactly
`CustomersV3?$top=N` where `N` is the digit group extracted by the numeric
pattern match `re.search(r'\btop\s+(\d+)\b', ...)`. -/
theorem claim_C5 (intent : String) (pre ws ds post : List Char)
    (hsplit : (strLower intent).data = pre ++ ('t' :: 'o' :: 'p' :: (ws ++ ds ++ post)))
    (hpre : pre.getLast?.all (fun c => !isWordChar c) = true)
    (hwsne : ws ≠ []) (hwsall : ∀ c ∈ ws, c.isWhitespace = true)
    (hdsne : ds ≠ []) (hdsall : ∀ c ∈ ds, c.isDigit = true)
    (hpost : post.head?.all (fun c => !isWordChar c) = true)
    (hcust : containsSub (strLower intent).data "customers".data = true) :
    ∃ n, searchTopN (strLower intent).data = some n ∧ n ≠ [] ∧
      (∀ c ∈ n, c.isDigit = true) ∧
      LocalMCP.generate_odata_query intent = "CustomersV3?$top=" ++ String.mk n := by
  have hpre2 : ∀ c, pre.getLast? = some c → isWordChar c = false := by
    intro c hc
    simpa using option_all_some _ _ hpre c hc
  have hpost2 : ∀ c, post.head? = some c → isWordChar c = false := by
    intro c hc
    simpa using option_all_some _ _ hpost c hc
  have hm : matchTopAt ('t' :: 'o' :: 'p' :: (ws ++ ds ++ post)) = some ds :=
    matchTopAt_struct ws ds post hwsne hwsall hdsne hdsall hpost2
  have hsome : (searchTopN ((strLower intent).data)).isSome = true := by
    rw [hsplit]
    exact searchTopN_isSome pre _ ds hm hpre2
  rcases hn : searchTopN (strLower intent).data with _ | n
  · rw [hn] at hsome
    simp at hsome
  · obtain ⟨hne, hdig⟩ := searchTopN_digits _ _ hn
    refine ⟨n, rfl, hne, hdig, ?_⟩
    have htop : containsSub (strLower intent).data "top".data = true := by
      simp only [containsSub, decide_eq_true_eq]
      refine ⟨pre, ws ++ ds ++ post, ?_⟩
      rw [hsplit]
      simp [List.append_assoc, List.cons_append]
    simp only [LocalMCP.generate_odata_query, htop, hcust, Bool.and_self,
      if_true, hn]

theorem claim_C5_witness :
    ∃ n, searchTopN (strLower "get top 5 customers").data = some n ∧ n ≠ [] ∧
      (∀ c ∈ n, c.isDigit = true) ∧
      LocalMCP.generate_odata_query "get top 5 customers"
        = "CustomersV3?$top=" ++ String.mk n :=
  claim_C5 "get top 5 customers" ['g', 'e', 't', ' '] [' '] ['5']
    [' ', 'c', 'u', 's', 't', 'o', 'm', 'e', 'r', 's'] (by decide) (by decide)
    (by decide) (by decide) (by decide) (by decide) (by decide) (by decide)

/-- C8: the heuristic translator is a total function of the intent (the
model is a plain Lean function, with no effects and no failure case), and
every output has the shape `CustomersV3?$top=<digits>` with a nonempty
digit string (covering the three shapes `$top=N`, `$top=50`, `$top=10`). -/
theorem claim_C8 (intent : String) :
    ∃ ds, ds ≠ [] ∧ (∀ c ∈ ds, c.isDigit = true) ∧
      LocalMCP.generate_odata_query intent = "CustomersV3?$top=" ++ String.mk ds := by
  simp only [LocalMCP.generate_odata_query]
  by_cases h1 : (containsSub (strLower intent).data "top".data
      && containsSub (strLower intent).data "customers".data) = true
  · rw [if_pos h1]
    rcases hs : searchTopN (strLower intent).data with _ | n
    · exact ⟨['1', '0'], by decide, by decide, by decide⟩
    · obtain ⟨hne, hdig⟩ := searchTopN_digits _ _ hs
      exact ⟨n, hne, hdig, rfl⟩
  · rw [if_neg h1]
    by_cases h2 : (containsSub (strLower intent).data "customers".data
        || containsSub (strLower intent).data "get customers".data) = true
    · rw [if_pos h2]
      exact ⟨['5', '0'], by decide, by decide, by decide⟩
    · rw [if_neg h2]
      exact ⟨['1', '0'], by decide, by decide, by decide⟩

/-! ## Claims about the heuristic distiller -/

/-- The branch guard of `process_odata_response`: is the payload a dict with
a list under the `"value"` key? -/
def isRowListPayload : PyVal → Bool
  | .dict kvs =>
    match lookupKey "value" kvs with
    | some (.list _) => true
    | _ => false
  | _ => false

/-- C10: every decoded payload that is not a dict with a list under
`"value"` is rendered with Python `str()` — the row-listing branch and the
`No customers found in response.` message are not used. (For a decoded JSON
string `str()` is the identity, so that case also equals `str(payload)`.) -/
theorem claim_C10 (v : PyVal) (h : isRowListPayload v = false) :
    LocalMCP.process_odata_response v = pyStr v := by
  cases v with
  | none => rfl
  | bool b => rfl
  | int n => rfl
  | str s => rfl
  | list l => rfl
  | dict kvs =>
    rcases hl : lookupKey "value" kvs with _ | v2
    · simp only [LocalMCP.process_odata_response, hl]
    · cases v2 with
      | list rows =>
        exfalso
        rw [isRowListPayload, hl] at h
        simp at h
      | none => simp only [LocalMCP.process_odata_response, hl]
      | bool b => simp only [LocalMCP.process_odata_response, hl]
      | int n => simp only [LocalMCP.process_odata_response, hl]
      | str s => simp only [LocalMCP.process_odata_response, hl]
      | dict kvs2 => simp only [LocalMCP.process_odata_response, hl]

theorem claim_C10_witness :
    isRowListPayload (.dict [("value", .dict [])]) = false ∧
    LocalMCP.process_odata_response (.dict [("value", .dict [])])
      = pyStr (.dict [("value", .dict [])]) :=
  ⟨rfl, claim_C10 (.dict [("value", .dict [])]) rfl⟩

/-- A token-endpoint response that succeeds with a bearer token. -/
def tokenOkResponse : HttpResponse :=
  ⟨200, some (.dict [("access_token", .str "tok123")]), ""⟩

/-- A world in which the ERP endpoint answers 200 with a non-JSON body. -/
def rawTextWorld : World :=
  ⟨tokenOkResponse, fun _ => ⟨200, Option.none, "<xml>hi</xml>"⟩,
    "https://erp.example.com"⟩

/-- C2 (code-bug evidence): for an HTTP 200 retrieval whose body does not
parse as JSON, `call_odata` returns the wrapper dict
`{"_raw_text": body}` rather than the body string, so
`process_odata_response` hits its `str(raw)` branch and produces the
Python rendering of the wrapper dict — not the original text. The
distiller itself *is* the identity on actual string payloads (last
conjunct), but the pipeline never feeds it one: the two functions disagree
on the raw-text interface, contradicting the source's own comments
(`call_odata`: "return raw text"; `process_odata_response`: "if raw is a
string (XML returned as text) then return as-is"). -/
theorem claim_C2_bug :
    (call_odata rawTextWorld "CustomersV3?$top=50").fst
      = .ok (.dict [("_raw_text", .str "<xml>hi</xml>")]) ∧
    LocalMCP.process_odata_response (.dict [("_raw_text", .str "<xml>hi</xml>")])
      = "\x7b" ++ String.mk [squote] ++ "_raw_text" ++ String.mk [squote] ++ ": "
        ++ String.mk [squote] ++ "<xml>hi</xml>" ++ String.mk [squote] ++ "\x7d" ∧
    LocalMCP.process_odata_response (.dict [("_raw_text", .str "<xml>hi</xml>")])
      ≠ "<xml>hi</xml>" ∧
    LocalMCP.process_odata_response (.str "<xml>hi</xml>") = "<xml>hi</xml>" :=
  ⟨rfl, by decide, by decide, rfl⟩

/-! ## Claims about the retrieval client and token provider -/

theorem get_access_token_snd (w : World) :
    (get_access_token w).snd = [HttpEvent.tokenPost] := by
  simp only [get_access_token]
  by_cases h : w.tokenResponse.status = 200
  · rw [if_pos h]
    rcases w.tokenResponse.jsonBody with _ | v
    · rfl
    · cases v <;> rfl
  · rw [if_neg h]

theorem get_access_token_pair (w : World) (tok : PyVal)
    (htok : (get_access_token w).fst = .ok tok) :
    get_access_token w = (.ok tok, [HttpEvent.tokenPost]) := by
  have hevs := get_access_token_snd w
  rcases hga : get_access_token w with ⟨res, evs0⟩
  rw [hga] at htok hevs
  simp only at htok hevs
  rw [htok, hevs]

theorem call_odata_ok (w : World) (qp : String) (tok : PyVal)
    (htok : (get_access_token w).fst = .ok tok) :
    ∃ v evs, call_odata w qp = (.ok v, evs) := by
  have hga := get_access_token_pair w tok htok
  simp only [call_odata, hga]
  by_cases hst : (w.odataResponse qp).status = 200
  · rw [if_pos hst]
    rcases hjb : (w.odataResponse qp).jsonBody with _ | v
    · exact ⟨_, _, rfl⟩
    · exact ⟨_, _, rfl⟩
  · rw [if_neg hst]
    exact ⟨_, _, rfl⟩

/-- C7: when the token step succeeds and the ERP endpoint answers with any
non-200 status, `call_odata` does not raise: it returns the error as data,
a dict carrying the body text under `"error"` and the status under
`"status_code"`; and the heuristic distiller maps that dict to its `str()`
rendering (a plain string mentioning both fields) instead of throwing. -/
theorem claim_C7 (w : World) (qp : String) (tok : PyVal) (s : Nat)
    (jb : Option PyVal) (body : String)
    (htok : (get_access_token w).fst = .ok tok)
    (hresp : w.odataResponse qp = ⟨s, jb, body⟩)
    (hs : s ≠ 200) :
    (call_odata w qp).fst
      = .ok (.dict [("error", .str body), ("status_code", .int s)]) ∧
    LocalMCP.process_odata_response
        (.dict [("error", .str body), ("status_code", .int s)])
      = pyStr (.dict [("error", .str body), ("status_code", .int s)]) := by
  constructor
  · have hga := get_access_token_pair w tok htok
    simp only [call_odata, hga, hresp]
    rw [if_neg hs]
  · have hlv : lookupKey "value"
        [("error", PyVal.str body), ("status_code", PyVal.int s)]
        = Option.none := rfl
    simp only [LocalMCP.process_odata_response, hlv]

/-- A world in which the ERP endpoint answers 404. -/
def errWorld : World :=
  ⟨tokenOkResponse, fun _ => ⟨404, Option.none, "not found"⟩,
    "https://erp.example.com"⟩

theorem claim_C7_witness :
    ((get_access_token errWorld).fst = .ok (.str "tok123") ∧
      errWorld.odataResponse "CustomersV3?$top=50" = ⟨404, Option.none, "not found"⟩ ∧
      (404 : Nat) ≠ 200) ∧
    ((call_odata errWorld "CustomersV3?$top=50").fst
        = .ok (.dict [("error", .str "not found"), ("status_code", .int 404)]) ∧
      LocalMCP.process_odata_response
          (.dict [("error", .str "not found"), ("status_code", .int 404)])
        = pyStr (.dict [("error", .str "not found"), ("status_code", .int 404)])) :=
  ⟨⟨rfl, rfl, by decide⟩,
    claim_C7 errWorld "CustomersV3?$top=50" (.str "tok123") 404 Option.none
      "not found" rfl rfl (by decide)⟩

/-- C9: when the identity endpoint answers 200 with a JSON object lacking
`access_token`, `get_access_token` raises nothing and returns `None`
(`response.json().get(...)`), and the subsequent OData GET is sent with the
literal header `Bearer None` (the f-string renders `None`). -/
theorem claim_C9 (w : World) (kvs : List (String × PyVal)) (qp : String)
    (hstatus : w.tokenResponse.status = 200)
    (hjson : w.tokenResponse.jsonBody = some (.dict kvs))
    (hlookup : lookupKey "access_token" kvs = Option.none) :
    (get_access_token w).fst = .ok PyVal.none ∧
    (call_odata w qp).snd = [HttpEvent.tokenPost,
      HttpEvent.odataGet (w.baseUrl ++ "/data/" ++ qp) "Bearer None"] := by
  have hga : get_access_token w = (.ok PyVal.none, [HttpEvent.tokenPost]) := by
    simp [get_access_token, hstatus, hjson, pyGet, hlookup]
  have hbearer : "Bearer " ++ pyStr PyVal.none = "Bearer None" := by decide
  refine ⟨by rw [hga], ?_⟩
  simp only [call_odata, hga, hbearer]
  by_cases hst : (w.odataResponse qp).status = 200
  · rw [if_pos hst]
    rcases hjb : (w.odataResponse qp).jsonBody with _ | v
    · simp [hjb]
    · simp [hjb]
  · rw [if_neg hst]
    simp

/-- A world whose token endpoint answers 200 with `{}` (no access token). -/
def noTokenFieldWorld : World :=
  ⟨⟨200, some (.dict []), ""⟩, fun _ => ⟨200, some (.dict [("value", .list [])]), ""⟩,
    "https://erp.example.com"⟩

theorem claim_C9_witness :
    (noTokenFieldWorld.tokenResponse.status = 200 ∧
      noTokenFieldWorld.tokenResponse.jsonBody = some (.dict []) ∧
      lookupKey "access_token" [] = Option.none) ∧
    ((get_access_token noTokenFieldWorld).fst = .ok PyVal.none ∧
      (call_odata noTokenFieldWorld "CustomersV3?$top=50").snd
        = [HttpEvent.tokenPost,
            HttpEvent.odataGet "https://erp.example.com/data/CustomersV3?$top=50"
              "Bearer None"]) :=
  ⟨⟨rfl, rfl, rfl⟩,
    claim_C9 noTokenFieldWorld [] "CustomersV3?$top=50" rfl rfl rfl⟩

/-! ## Claims about the fallback policy and the orchestrator -/

/-- C6: if the delegated translator raises (models `mcp.generate_odata_query`
raising any `Exception`), `query_mcp_for_odata` swallows the failure and
returns the heuristic translator's result for the same intent, and — given
the token step succeeds — the whole tool invocation still returns a success
value, never the delegated failure. -/
theorem claim_C6 (dq : String → Except String String)
    (dp : PyVal → Except String String) (w : World) (intent e : String)
    (tok : PyVal)
    (hdq : dq intent = .error e)
    (htok : (get_access_token w).fst = .ok tok) :
    query_mcp_for_odata true dq intent = LocalMCP.generate_odata_query intent ∧
    ∃ r, (mcp_tool true dq dp w intent).fst = .ok r := by
  constructor
  · simp [query_mcp_for_odata, hdq]
  · obtain ⟨v, evs, hco⟩ :=
      call_odata_ok w (query_mcp_for_odata true dq intent) tok htok
    refine ⟨⟨"Hello, here is the information you requested:\n"
      ++ query_mcp_for_changes true dp v, query_mcp_for_changes true dp v⟩, ?_⟩
    simp only [mcp_tool, hco]

/-- A world in which the ERP endpoint answers 200 with an empty row list. -/
def emptyRowsWorld : World :=
  ⟨tokenOkResponse, fun _ => ⟨200, some (.dict [("value", .list [])]), ""⟩,
    "https://erp.example.com"⟩

theorem claim_C6_witness :
    ((fun _ : String => (Except.error "boom" : Except String String))
        "list customers" = .error "boom" ∧
      (get_access_token emptyRowsWorld).fst = .ok (.str "tok123")) ∧
    (query_mcp_for_odata true (fun _ => .error "boom") "list customers"
        = LocalMCP.generate_odata_query "list customers" ∧
      ∃ r, (mcp_tool true (fun _ => .error "boom") (fun _ => .error "boom")
          emptyRowsWorld "list customers").fst = .ok r) :=
  ⟨⟨rfl, rfl⟩,
    claim_C6 (fun _ => .error "boom") (fun _ => .error "boom") emptyRowsWorld
      "list customers" "boom" (.str "tok123") rfl rfl⟩

theorem call_odata_events_head (w : World) (qp : String) :
    (call_odata w qp).snd.head? = some HttpEvent.tokenPost := by
  have hevs := get_access_token_snd w
  rcases hga : get_access_token w with ⟨res, evs0⟩
  rw [hga] at hevs
  simp only at hevs
  subst hevs
  rcases res with e | tok
  · simp [call_odata, hga]
  · simp only [call_odata, hga]
    by_cases hst : (w.odataResponse qp).status = 200
    · rw [if_pos hst]
      rcases hjb : (w.odataResponse qp).jsonBody with _ | v
      · simp [hjb]
      · simp [hjb]
    · rw [if_neg hst]
      simp

theorem mcp_tool_events_head (mcp_available : Bool)
    (dq : String → Except String String) (dp : PyVal → Except String String)
    (w : World) (context : String) :
    (mcp_tool mcp_available dq dp w context).snd.head? = some HttpEvent.tokenPost := by
  have h := call_odata_events_head w (query_mcp_for_odata mcp_available dq context)
  rcases hco : call_odata w (query_mcp_for_odata mcp_available dq context)
    with ⟨res, evs⟩
  rw [hco] at h
  rcases res with e | v
  · simp only [mcp_tool, hco]
    exact h
  · simp only [mcp_tool, hco]
    exact h

/-- A world used to run the pipeline on the empty intent. -/
def emptyIntentWorld : World :=
  ⟨tokenOkResponse, fun _ => ⟨200, some (.dict [("value", .list [])]), ""⟩,
    "https://erp.example.com"⟩

/-- C3 (counterexample): the claim says the empty intent fails with a
validation error before any outbound network call. In the code `mcp_tool`
has no validation at all: on `""` the run performs the token POST and the
OData GET (two network events) and returns a normal success envelope, not
an error. -/
theorem claim_C3_counterexample :
    (mcp_tool true (fun _ => .error "AttributeError")
        (fun _ => .error "AttributeError") emptyIntentWorld "").snd
      = [HttpEvent.tokenPost,
          HttpEvent.odataGet "https://erp.example.com/data/CustomersV3?$top=10"
            "Bearer tok123"] ∧
    (mcp_tool true (fun _ => .error "AttributeError")
        (fun _ => .error "AttributeError") emptyIntentWorld "").fst
      = .ok ⟨"Hello, here is the information you requested:\nNo customers found in response.",
          "No customers found in response."⟩ :=
  ⟨rfl, rfl⟩

/-- C3 (amended): for the empty intent no validation happens and the
pipeline runs: the translator (delegated translator raising, as at runtime
where `mcp` is rebound to a `FastMCP` instance) produces the default path
`CustomersV3?$top=10`, and the first outbound network call of the
invocation is the token POST. -/
theorem claim_C3 (w : World) (dq : String → Except String String)
    (dp : PyVal → Except String String) (e : String)
    (hdq : dq "" = .error e) :
    query_mcp_for_odata true dq "" = "CustomersV3?$top=10" ∧
    (mcp_tool true dq dp w "").snd.head? = some HttpEvent.tokenPost := by
  constructor
  · simp only [query_mcp_for_odata, hdq]
    decide
  · exact mcp_tool_events_head true dq dp w ""

theorem claim_C3_witness :
    (fun _ : String => (Except.error "boom" : Except String String)) ""
      = .error "boom" ∧
    (query_mcp_for_odata true (fun _ => .error "boom") "" = "CustomersV3?$top=10" ∧
      (mcp_tool true (fun _ => .error "boom") (fun _ => .error "boom")
          emptyIntentWorld "").snd.head? = some HttpEvent.tokenPost) :=
  ⟨rfl, claim_C3 emptyIntentWorld (fun _ => .error "boom")
    (fun _ => .error "boom") "boom" rfl⟩

/-- The structured payload of the end-to-end scenario. -/
def c4payload : PyVal :=
  .dict [("value", .list [.dict [("AccountNumber", .str "A1"),
    ("DisplayName", .str "Contoso")]])]

/-- C4: end-to-end — the intent `get top 5 customers` translates to
`CustomersV3?$top=5`; when the retrieval step returns
`{"value":[{"AccountNumber":"A1","DisplayName":"Contoso"}]}` for that path,
the distilled text is `A1: Contoso`, the returned message is the greeting
followed by a newline and the distilled text, and `processedContext` equals
the distilled text. -/
theorem claim_C4 (w : World) (dq : String → Except String String)
    (dp : PyVal → Except String String) (tok : PyVal) (txt : String)
    (htok : (get_access_token w).fst = .ok tok)
    (hresp : w.odataResponse "CustomersV3?$top=5" = ⟨200, some c4payload, txt⟩) :
    LocalMCP.generate_odata_query "get top 5 customers" = "CustomersV3?$top=5" ∧
    (mcp_tool false dq dp w "get top 5 customers").fst
      = .ok ⟨"Hello, here is the information you requested:\nA1: Contoso",
          "A1: Contoso"⟩ := by
  constructor
  · decide
  · have hq : query_mcp_for_odata false dq "get top 5 customers"
        = "CustomersV3?$top=5" := by
      have h0 : query_mcp_for_odata false dq "get top 5 customers"
          = LocalMCP.generate_odata_query "get top 5 customers" := rfl
      rw [h0]
      decide
    have hga := get_access_token_pair w tok htok
    have hco : call_odata w "CustomersV3?$top=5"
        = (.ok c4payload, [HttpEvent.tokenPost,
            HttpEvent.odataGet (w.baseUrl ++ "/data/" ++ "CustomersV3?$top=5")
              ("Bearer " ++ pyStr tok)]) := by
      simp only [call_odata, hga, hresp]
      rfl
    have hp : query_mcp_for_changes false dp c4payload = "A1: Contoso" := by
      have h1 : query_mcp_for_changes false dp c4payload
          = LocalMCP.process_odata_response c4payload := rfl
      rw [h1]
      decide
    have hmsg : "Hello, here is the information you requested:\n" ++ "A1: Contoso"
        = "Hello, here is the information you requested:\nA1: Contoso" := by decide
    simp only [mcp_tool, hq, hco, hp, hmsg]

/-- A world realising the end-to-end scenario of C4. -/
def c4World : World :=
  ⟨tokenOkResponse, fun _ => ⟨200, some c4payload, ""⟩, "https://erp.example.com"⟩

theorem claim_C4_witness :
    ((get_access_token c4World).fst = .ok (.str "tok123") ∧
      c4World.odataResponse "CustomersV3?$top=5" = ⟨200, some c4payload, ""⟩) ∧
    (LocalMCP.generate_odata_query "get top 5 customers" = "CustomersV3?$top=5" ∧
      (mcp_tool false (fun _ => .error "boom") (fun _ => .error "boom") c4World
          "get top 5 customers").fst
        = .ok ⟨"Hello, here is the information you requested:\nA1: Contoso",
            "A1: Contoso"⟩) :=
  ⟨⟨rfl, rfl⟩,
    claim_C4 c4World (fun _ => .error "boom") (fun _ => .error "boom")
      (.str "tok123") "" rfl rfl⟩
